import Mathlib

/-!
Shallow embedding of the TimeLock Solana program
(src/timelock_program/src/lib.rs) and proofs about its
instruction decoding and lock state-transition logic.

Bytes are modelled as natural numbers below 256, byte buffers as
`List Nat`, public keys as `Nat`, and the on-chain timelock account as an
explicit `Account` value threaded through the operations.  Fallible Rust
code returns `Except`; the one place the Rust code can panic
(`slice::split_at` in `TimeLockInstruction::unpack`) is modelled by a
distinct `panicked` result.
-/

set_option maxRecDepth 100000

namespace TimeLock

/-- Source constant `SECRET_LENGTH` (lib.rs line 14). -/
def SECRET_LENGTH : Nat := 256

/-- The `solana_program::program_error::ProgramError` variants this program
produces, plus `invokeFailed` for a failing cross-program invocation of the
System Program (create_account on an account already in use) and
`borshIoError` for a failing `try_from_slice`. -/
inductive ProgramError where
  | invalidInstructionData
  | invalidAccountData
  | incorrectProgramId
  | borshIoError
  | invokeFailed
  deriving DecidableEq

/-- Whether a byte is a UTF-8 continuation byte (high bits `10`). -/
def isUtf8Cont (b : Nat) : Bool := 0x80 ≤ b && b ≤ 0xBF

/-- Validity of a byte sequence as UTF-8, as checked by Rust's
`str::from_utf8` (lib.rs line 69 and 146): ASCII, the two- to four-byte
sequences with their restricted second bytes, no overlongs, no surrogates,
and nothing above U+10FFFF. -/
def validUtf8 : List Nat → Bool
  | [] => true
  | b :: rest =>
    if b ≤ 0x7F then validUtf8 rest
    else if 0xC2 ≤ b && b ≤ 0xDF then
      match rest with
      | c1 :: r => isUtf8Cont c1 && validUtf8 r
      | [] => false
    else if b = 0xE0 then
      match rest with
      | c1 :: c2 :: r => (0xA0 ≤ c1 && c1 ≤ 0xBF) && isUtf8Cont c2 && validUtf8 r
      | _ => false
    else if 0xE1 ≤ b && b ≤ 0xEC then
      match rest with
      | c1 :: c2 :: r => isUtf8Cont c1 && isUtf8Cont c2 && validUtf8 r
      | _ => false
    else if b = 0xED then
      match rest with
      | c1 :: c2 :: r => (0x80 ≤ c1 && c1 ≤ 0x9F) && isUtf8Cont c2 && validUtf8 r
      | _ => false
    else if 0xEE ≤ b && b ≤ 0xEF then
      match rest with
      | c1 :: c2 :: r => isUtf8Cont c1 && isUtf8Cont c2 && validUtf8 r
      | _ => false
    else if b = 0xF0 then
      match rest with
      | c1 :: c2 :: c3 :: r =>
        (0x90 ≤ c1 && c1 ≤ 0xBF) && isUtf8Cont c2 && isUtf8Cont c3 && validUtf8 r
      | _ => false
    else if 0xF1 ≤ b && b ≤ 0xF3 then
      match rest with
      | c1 :: c2 :: c3 :: r =>
        isUtf8Cont c1 && isUtf8Cont c2 && isUtf8Cont c3 && validUtf8 r
      | _ => false
    else if b = 0xF4 then
      match rest with
      | c1 :: c2 :: c3 :: r =>
        (0x80 ≤ c1 && c1 ≤ 0x8F) && isUtf8Cont c2 && isUtf8Cont c3 && validUtf8 r
      | _ => false
    else false

/-- Value of a little-endian byte list as an unsigned integer. -/
def u64FromLeBytes : List Nat → Nat
  | [] => 0
  | b :: rest => b + 256 * u64FromLeBytes rest

/-- Reinterpret an unsigned 64-bit value as a signed two's-complement
64-bit integer. -/
def toI64 (v : Nat) : Int := if v < 2 ^ 63 then (v : Int) else (v : Int) - 2 ^ 64

/-- Rust's `i64::from_le_bytes` (lib.rs line 59) on an 8-byte buffer. -/
def i64FromLeBytes (b : List Nat) : Int := toI64 (u64FromLeBytes b)

/-- The `k` little-endian base-256 digits of `v`. -/
def natToLeBytes : Nat → Nat → List Nat
  | 0, _ => []
  | k + 1, v => v % 256 :: natToLeBytes k (v / 256)

/-- Rust's `i64::to_le_bytes`, i.e. the little-endian serialization of an
`i64` used by Borsh for the `timestamp` field: the 8 base-256 digits of the
value reduced modulo 2^64. -/
def i64ToLeBytes (i : Int) : List Nat := natToLeBytes 8 ((i % (2 ^ 64 : Int)).toNat)

/-- Source struct `TimeLockAccount` (lib.rs lines 34-38): the persisted
lock record, a signed 64-bit `timestamp` and a `SECRET_LENGTH`-byte
`secret`. -/
structure TimeLockAccount where
  timestamp : Int
  secret : List Nat
  deriving DecidableEq

/-- Source enum `TimeLockInstruction` (lib.rs lines 40-49). -/
inductive TimeLockInstruction where
  | initializeTimeLock (timestamp : Int) (secret : List Nat)
  | tryUnlock
  deriving DecidableEq

/-- Result of `TimeLockInstruction::unpack`: success, a `ProgramError`, or a
Rust panic (an out-of-bounds `split_at`). -/
inductive UnpackResult where
  | ok (i : TimeLockInstruction)
  | err (e : ProgramError)
  | panicked
  deriving DecidableEq

/-- Source `TimeLockInstruction::unpack` (lib.rs lines 52-74).
`split_first` on an empty buffer is `InvalidInstructionData`; tag 0 runs
`rest.split_at(8)` — which panics when `rest` holds fewer than 8 bytes —
then converts the 8 timestamp bytes (the `try_into` on them can no longer
fail at that point), requires exactly `SECRET_LENGTH` remaining bytes for
the secret, and checks the secret is valid UTF-8 (`InvalidAccountData`
otherwise); tag 1 ignores any remaining bytes; any other tag is
`InvalidInstructionData`. -/
def unpack (input : List Nat) : UnpackResult :=
  match input with
  | [] => .err .invalidInstructionData
  | tag :: rest =>
    if tag = 0 then
      if rest.length < 8 then .panicked
      else
        let timestamp := i64FromLeBytes (rest.take 8)
        let secret := rest.drop 8
        if secret.length = SECRET_LENGTH then
          if validUtf8 secret then .ok (.initializeTimeLock timestamp secret)
          else .err .invalidAccountData
        else .err .invalidInstructionData
    else if tag = 1 then .ok .tryUnlock
    else .err .invalidInstructionData

/-- Borsh serialization of `TimeLockInstruction` (the derived
`BorshSerialize` impl, lib.rs line 41): a one-byte variant index, then the
variant's fields in order — the `i64` little-endian, the `[u8; 256]` as raw
bytes with no length prefix. -/
def packInstruction : TimeLockInstruction → List Nat
  | .initializeTimeLock timestamp secret => 0 :: (i64ToLeBytes timestamp ++ secret)
  | .tryUnlock => [1]

/-- Borsh serialization of `TimeLockAccount` (the derived `BorshSerialize`
impl used at lib.rs line 124): the `i64` little-endian followed by the raw
secret bytes, 264 bytes in all. -/
def serializeTimeLockAccount (a : TimeLockAccount) : List Nat :=
  i64ToLeBytes a.timestamp ++ a.secret

/-- Borsh deserialization `TimeLockAccount::try_from_slice` (lib.rs line
140): reads 8 bytes of timestamp and `SECRET_LENGTH` bytes of secret and
requires the buffer to be fully consumed, so it succeeds exactly on buffers
of length `8 + SECRET_LENGTH`; any other length is a Borsh IO error. -/
def deserializeTimeLockAccount (b : List Nat) : Except ProgramError TimeLockAccount :=
  if b.length = 8 + SECRET_LENGTH then
    .ok { timestamp := i64FromLeBytes (b.take 8), secret := b.drop 8 }
  else .error .borshIoError

/-- The timelock data account as the hosting ledger presents it: an owning
program (a public key, modelled as `Nat`) and its data bytes. -/
structure Account where
  owner : Nat
  data : List Nat
  deriving DecidableEq

/-- The System Program's id, owner of every account not yet assigned to a
program. -/
def systemProgramId : Nat := 0

/-- Modelled from the spec: the persistence/allocation collaborator.  The
System Program's `create_account` (invoked at lib.rs lines 105-120) rejects
an account already in use — one already assigned to a program or already
holding data (allocation-conflict semantics, spec section 5). -/
def accountInUse (a : Account) : Bool :=
  decide (a.owner ≠ systemProgramId) || decide (a.data ≠ [])

/-- Source `account_space` (lib.rs line 99): the byte size allocated for
the timelock data account. -/
def account_space : Nat := 8 + SECRET_LENGTH

/-- Source `initialize_time_lock` (lib.rs lines 78-128).  First the clock
check: `now >= timestamp` is `InvalidInstructionData` (the spec's
`TimestampNotInFuture`), before any account creation or write.  Then the
System Program is invoked to create the account of `account_space` bytes
owned by this program (failing if the account is already in use), the
record `TimeLockAccount { timestamp, secret }` is built from the supplied
fields, and its Borsh serialization is written into the account's data. -/
def initialize_time_lock (programId : Nat) (timelock_data_account : Account)
    (now timestamp : Int) (secret : List Nat) : Except ProgramError Account :=
  if now ≥ timestamp then .error .invalidInstructionData
  else if accountInUse timelock_data_account then .error .invokeFailed
  else
    let timelock_data : TimeLockAccount := { timestamp := timestamp, secret := secret }
    .ok { owner := programId, data := serializeTimeLockAccount timelock_data }

/-- Outcome of an unlock attempt, from the two `msg!` arms of `try_unlock`
(lib.rs lines 143-149): either the secret is disclosed, or the lock is
still closed and only the unlock timestamp is reported. -/
inductive UnlockOutcome where
  | disclosed (secret : List Nat)
  | stillLocked (timestamp : Int)
  deriving DecidableEq

/-- The time gate of `try_unlock` (lib.rs lines 143-149): compares `now`
with the stored timestamp; when unlocked it re-checks the secret is UTF-8
(`str::from_utf8` at line 146, `InvalidAccountData` on failure) and
discloses it, otherwise it reports the lock holds until the stored
timestamp. -/
def tryUnlockGate (timelock_data : TimeLockAccount) (now : Int) :
    Except ProgramError UnlockOutcome :=
  if now ≥ timelock_data.timestamp then
    if validUtf8 timelock_data.secret then .ok (.disclosed timelock_data.secret)
    else .error .invalidAccountData
  else .ok (.stillLocked timelock_data.timestamp)

/-- Source `try_unlock` (lib.rs lines 130-152): first the ownership check
(`IncorrectProgramId` when the account is not owned by this program), then
Borsh deserialization of the account data, then the time gate.  It never
writes to the account. -/
def try_unlock (programId : Nat) (timelock_data_account : Account) (now : Int) :
    Except ProgramError UnlockOutcome :=
  if timelock_data_account.owner ≠ programId then .error .incorrectProgramId
  else
    match deserializeTimeLockAccount timelock_data_account.data with
    | .error e => .error e
    | .ok timelock_data => tryUnlockGate timelock_data now

/-- Result of processing one instruction: the timelock account's state
afterwards, a `ProgramError`, or a panic propagated from `unpack`. -/
inductive ProcResult where
  | ok (acct : Account)
  | err (e : ProgramError)
  | panicked
  deriving DecidableEq

/-- Source `process_instruction` (lib.rs lines 18-31): unpacks the
instruction data and dispatches to `initialize_time_lock` or `try_unlock`.
`try_unlock` performs no writes, so the account state is returned
unchanged on its success. -/
def process_instruction (programId : Nat) (acct : Account) (now : Int)
    (instruction_data : List Nat) : ProcResult :=
  match unpack instruction_data with
  | .panicked => .panicked
  | .err e => .err e
  | .ok (.initializeTimeLock timestamp secret) =>
    match initialize_time_lock programId acct now timestamp secret with
    | .ok a => .ok a
    | .error e => .err e
  | .ok .tryUnlock =>
    match try_unlock programId acct now with
    | .ok _ => .ok acct
    | .error e => .err e

/-! Helper lemmas about the little-endian codec. -/

theorem u64FromLeBytes_lt (b : List Nat) (hb : ∀ x ∈ b, x < 256) :
    u64FromLeBytes b < 256 ^ b.length := by
  induction b with
  | nil => simp [u64FromLeBytes]
  | cons x xs ih =>
    have hx : x < 256 := hb x (List.mem_cons_self x xs)
    have hu : u64FromLeBytes xs < 256 ^ xs.length :=
      ih (fun y hy => hb y (List.mem_cons_of_mem x hy))
    simp only [u64FromLeBytes, List.length_cons, pow_succ]
    omega

theorem natToLeBytes_length (k v : Nat) : (natToLeBytes k v).length = k := by
  induction k generalizing v with
  | zero => rfl
  | succ k ih => simp [natToLeBytes, ih]

theorem natToLeBytes_u64FromLeBytes : ∀ b : List Nat, (∀ x ∈ b, x < 256) →
    natToLeBytes b.length (u64FromLeBytes b) = b
  | [], _ => rfl
  | x :: xs, hb => by
    have hx : x < 256 := hb x (List.mem_cons_self x xs)
    have h1 : (x + 256 * u64FromLeBytes xs) % 256 = x := by omega
    have h2 : (x + 256 * u64FromLeBytes xs) / 256 = u64FromLeBytes xs := by omega
    simp only [List.length_cons, u64FromLeBytes, natToLeBytes, h1, h2]
    exact congrArg (x :: ·)
      (natToLeBytes_u64FromLeBytes xs (fun y hy => hb y (List.mem_cons_of_mem x hy)))

theorem u64FromLeBytes_natToLeBytes (k : Nat) : ∀ v : Nat,
    u64FromLeBytes (natToLeBytes k v) = v % 256 ^ k := by
  induction k with
  | zero => intro v; rw [pow_zero, Nat.mod_one]; rfl
  | succ k ih =>
    intro v
    show v % 256 + 256 * u64FromLeBytes (natToLeBytes k (v / 256)) = v % 256 ^ (k + 1)
    rw [ih, pow_succ', Nat.mod_mul]

theorem toI64_emod (v : Nat) (h : v < 2 ^ 64) : ((toI64 v) % (2 ^ 64 : Int)).toNat = v := by
  unfold toI64
  split <;> omega

theorem toI64_of_emod (i : Int) (h1 : -(2 ^ 63) ≤ i) (h2 : i < 2 ^ 63) :
    toI64 ((i % (2 ^ 64 : Int)).toNat) = i := by
  unfold toI64
  split <;> omega

theorem i64ToLeBytes_length (i : Int) : (i64ToLeBytes i).length = 8 :=
  natToLeBytes_length 8 _

theorem i64ToLeBytes_i64FromLeBytes (b : List Nat) (hlen : b.length = 8)
    (hb : ∀ x ∈ b, x < 256) : i64ToLeBytes (i64FromLeBytes b) = b := by
  have hu : u64FromLeBytes b < 2 ^ 64 := by
    have h := u64FromLeBytes_lt b hb
    rw [hlen] at h
    norm_num at h ⊢
    exact h
  unfold i64ToLeBytes i64FromLeBytes
  rw [toI64_emod _ hu]
  have h := natToLeBytes_u64FromLeBytes b hb
  rw [hlen] at h
  exact h

theorem i64FromLeBytes_i64ToLeBytes (i : Int) (h1 : -(2 ^ 63) ≤ i) (h2 : i < 2 ^ 63) :
    i64FromLeBytes (i64ToLeBytes i) = i := by
  unfold i64FromLeBytes i64ToLeBytes
  rw [u64FromLeBytes_natToLeBytes]
  have hlt : (i % (2 ^ 64 : Int)).toNat < 256 ^ 8 := by norm_num; omega
  rw [Nat.mod_eq_of_lt hlt]
  exact toI64_of_emod i h1 h2

/-! Claim theorems. -/

/-- C1: for every `current_time` and `unlock_time` with
`unlock_time <= current_time`, creation fails with the timestamp-not-in-future
error (realised in the code as `ProgramError::InvalidInstructionData`), so
equality with the current time is rejected; for every
`unlock_time > current_time` (on a not-yet-allocated account), creation
succeeds and the record written is exactly `{ timestamp, secret }` with the
supplied fields, byte-for-byte. -/
theorem initialize_time_lock_spec (programId : Nat) (acct : Account)
    (now timestamp : Int) (secret : List Nat) :
    (timestamp ≤ now →
      initialize_time_lock programId acct now timestamp secret =
        .error .invalidInstructionData)
    ∧ (now < timestamp → accountInUse acct = false →
      initialize_time_lock programId acct now timestamp secret =
        .ok { owner := programId,
              data := serializeTimeLockAccount
                        { timestamp := timestamp, secret := secret } }) := by
  constructor
  · intro h
    simp [initialize_time_lock, ge_iff_le, h]
  · intro h hfree
    have h2 : ¬ timestamp ≤ now := by omega
    simp [initialize_time_lock, ge_iff_le, h2, hfree]

/-- Witness for C1 at concrete inputs: `unlock_time = current_time = 10` is
rejected, and `unlock_time = 11 > 10` succeeds with exactly the supplied
fields. -/
theorem initialize_time_lock_spec_witness :
    initialize_time_lock 7 { owner := 0, data := [] } 10 10 (List.replicate 256 65) =
      .error .invalidInstructionData
    ∧ initialize_time_lock 7 { owner := 0, data := [] } 10 11 (List.replicate 256 65) =
      .ok { owner := 7,
            data := serializeTimeLockAccount
                      { timestamp := 11, secret := List.replicate 256 65 } } :=
  ⟨(initialize_time_lock_spec 7 { owner := 0, data := [] } 10 10
      (List.replicate 256 65)).1 (by decide),
   (initialize_time_lock_spec 7 { owner := 0, data := [] } 10 11
      (List.replicate 256 65)).2 (by decide) (by decide)⟩

/-- C2: for a created record (its secret passed the creation-time UTF-8
check) with stored timestamp `T`, the unlock attempt yields `stillLocked`
(which carries no secret bytes, only the timestamp) exactly when
`current_time < T`, and yields `disclosed` with the record's secret exactly
when `current_time >= T`, including the boundary `current_time = T`. -/
theorem tryUnlockGate_boundary (timelock_data : TimeLockAccount) (now : Int)
    (hutf : validUtf8 timelock_data.secret = true) :
    (now < timelock_data.timestamp ↔
      tryUnlockGate timelock_data now = .ok (.stillLocked timelock_data.timestamp))
    ∧ (timelock_data.timestamp ≤ now ↔
      tryUnlockGate timelock_data now = .ok (.disclosed timelock_data.secret)) := by
  constructor
  · constructor
    · intro hlt
      have h2 : ¬ timelock_data.timestamp ≤ now := by omega
      simp [tryUnlockGate, ge_iff_le, h2]
    · intro heq
      by_contra hge
      have h2 : timelock_data.timestamp ≤ now := by omega
      simp [tryUnlockGate, ge_iff_le, h2, hutf] at heq
  · constructor
    · intro hle
      simp [tryUnlockGate, ge_iff_le, hle, hutf]
    · intro heq
      by_contra hlt
      have h2 : ¬ timelock_data.timestamp ≤ now := by omega
      simp [tryUnlockGate, ge_iff_le, h2] at heq

/-- Witness for C2 at a concrete record with timestamp 100: at time 99 the
outcome is `stillLocked 100`, at the exact boundary 100 the outcome is
`disclosed` with the stored secret. -/
theorem tryUnlockGate_boundary_witness :
    tryUnlockGate { timestamp := 100, secret := List.replicate 256 65 } 99 =
      .ok (.stillLocked 100)
    ∧ tryUnlockGate { timestamp := 100, secret := List.replicate 256 65 } 100 =
      .ok (.disclosed (List.replicate 256 65)) :=
  ⟨(tryUnlockGate_boundary { timestamp := 100, secret := List.replicate 256 65 } 99
      (by decide)).1.mp (by decide),
   (tryUnlockGate_boundary { timestamp := 100, secret := List.replicate 256 65 } 100
      (by decide)).2.mp (by decide)⟩

/-- C3: the code violates the claim that decoding never panics.  A tag-0
buffer with fewer than 8 bytes after the tag makes
`TimeLockInstruction::unpack` call `rest.split_at(8)` with `rest` too
short, which panics in Rust, instead of returning the Malformed-class
error the spec requires (the `try_into().map_err(...)` on the timestamp
bytes, which can no longer fail after `split_at`, shows the author meant
to catch exactly that case).  The empty buffer and an unknown tag do
return Malformed-class errors. -/
theorem unpack_short_create_panics :
    unpack [0] = .panicked
    ∧ unpack [] = .err .invalidInstructionData
    ∧ unpack [2] = .err .invalidInstructionData :=
  ⟨rfl, rfl, rfl⟩

/-- C5: on a validly-created record (UTF-8 secret), the time-gate
evaluation of the unlock attempt never produces an error: both outcomes
are successful returns. -/
theorem tryUnlockGate_total (timelock_data : TimeLockAccount) (now : Int)
    (hutf : validUtf8 timelock_data.secret = true) :
    ∃ out, tryUnlockGate timelock_data now = .ok out := by
  by_cases h : timelock_data.timestamp ≤ now
  · exact ⟨.disclosed timelock_data.secret, by simp [tryUnlockGate, ge_iff_le, h, hutf]⟩
  · exact ⟨.stillLocked timelock_data.timestamp, by simp [tryUnlockGate, ge_iff_le, h]⟩

/-- Witness for C5 at a concrete still-locked record. -/
theorem tryUnlockGate_total_witness :
    ∃ out, tryUnlockGate { timestamp := 100, secret := List.replicate 256 65 } 99 =
      .ok out :=
  tryUnlockGate_total { timestamp := 100, secret := List.replicate 256 65 } 99 (by decide)

/-- C6: when creation fails because the unlock time is not strictly in the
future, the failure happens whatever the state of the target account —
the clock check runs before the account creation and the write — and no
new account state is produced. -/
theorem initialize_time_lock_no_write (programId : Nat) (acct : Account)
    (now timestamp : Int) (secret : List Nat) (h : timestamp ≤ now) :
    initialize_time_lock programId acct now timestamp secret =
      .error .invalidInstructionData := by
  simp [initialize_time_lock, ge_iff_le, h]

/-- Witness for C6: creating with `unlock_time = now - 1` fails and
produces no record. -/
theorem initialize_time_lock_no_write_witness :
    initialize_time_lock 7 { owner := 0, data := [] } 10 9 (List.replicate 256 65) =
      .error .invalidInstructionData :=
  initialize_time_lock_no_write 7 { owner := 0, data := [] } 10 9
    (List.replicate 256 65) (by decide)

/-- C10: the ownership check is the first thing `try_unlock` does: whenever
the stored account's owner differs from the program id it fails with the
distinct `IncorrectProgramId` error, for every account data buffer (even
one that would not deserialize) and every time — so the failure precedes
deserialization and the time gate, and the error value carries no secret
bytes and no lock information. -/
theorem try_unlock_owner_check (programId : Nat) (acct : Account) (now : Int)
    (h : acct.owner ≠ programId) :
    try_unlock programId acct now = .error .incorrectProgramId := by
  simp [try_unlock, h]

/-- Witness for C10 at a concrete mismatched owner and garbage data. -/
theorem try_unlock_owner_check_witness :
    try_unlock 7 { owner := 8, data := [1, 2, 3] } 1000 = .error .incorrectProgramId :=
  try_unlock_owner_check 7 { owner := 8, data := [1, 2, 3] } 1000 (by decide)

/-- C4: on well-formed buffers the decoder is exact.  A tag-0 buffer whose
remaining 264 bytes have valid-UTF-8 secret bytes decodes to the create
operation carrying the little-endian signed 64-bit interpretation of bytes
1..9 as the timestamp and bytes 9..265 as the secret; a tag-1 buffer
decodes to the unlock attempt whatever (if anything) follows the tag. -/
theorem unpack_wellformed (rest extra : List Nat)
    (hlen : rest.length = 264) (hutf : validUtf8 (rest.drop 8) = true) :
    unpack (0 :: rest) =
      .ok (.initializeTimeLock (i64FromLeBytes (rest.take 8)) (rest.drop 8))
    ∧ unpack (1 :: extra) = .ok .tryUnlock := by
  constructor
  · have h8 : ¬ rest.length < 8 := by omega
    have hdl : (rest.drop 8).length = SECRET_LENGTH := by
      simp [List.length_drop, hlen, SECRET_LENGTH]
    simp [unpack, h8, hdl, hutf]
  · simp [unpack]

/-- Witness for C4 on a concrete 265-byte create buffer (timestamp 1000,
secret 256 bytes of 65) and a tag-1 buffer with two trailing bytes. -/
theorem unpack_wellformed_witness :
    unpack (0 :: ([232, 3, 0, 0, 0, 0, 0, 0] ++ List.replicate 256 65)) =
      .ok (.initializeTimeLock
        (i64FromLeBytes (([232, 3, 0, 0, 0, 0, 0, 0] ++ List.replicate 256 65).take 8))
        (([232, 3, 0, 0, 0, 0, 0, 0] ++ List.replicate 256 65).drop 8))
    ∧ unpack (1 :: [9, 9]) = .ok .tryUnlock :=
  unpack_wellformed ([232, 3, 0, 0, 0, 0, 0, 0] ++ List.replicate 256 65) [9, 9]
    (by decide) (by decide)

/-- C7: decode/encode round-trip on the create wire format.  Whenever
`unpack` accepts a byte buffer as a create instruction, re-encoding the
decoded operation with the derived Borsh serialization reproduces the
buffer byte-for-byte, and the buffer is exactly 265 bytes long (a one-byte
tag plus the 264-byte payload). -/
theorem unpack_packInstruction_roundtrip (input : List Nat) (timestamp : Int)
    (secret : List Nat) (hbytes : ∀ x ∈ input, x < 256)
    (h : unpack input = .ok (.initializeTimeLock timestamp secret)) :
    packInstruction (.initializeTimeLock timestamp secret) = input
    ∧ input.length = 265 := by
  match input with
  | [] => exact absurd h (by simp [unpack])
  | tag :: rest =>
    by_cases h0 : tag = 0
    · subst h0
      have hbytes2 : ∀ x ∈ rest, x < 256 := fun x hx =>
        hbytes x (List.mem_cons_of_mem 0 hx)
      by_cases h8 : rest.length < 8
      · exact absurd h (by simp [unpack, h8])
      · by_cases hsl : rest.length - 8 = SECRET_LENGTH
        · by_cases hutf : validUtf8 (rest.drop 8) = true
          · have hun : unpack (0 :: rest) =
                .ok (.initializeTimeLock (i64FromLeBytes (rest.take 8)) (rest.drop 8)) := by
              simp [unpack, h8, hsl, hutf]
            rw [hun] at h
            injection h with h1
            injection h1 with hts hsec
            subst hts
            subst hsec
            have hlen : rest.length = 264 := by
              simp [SECRET_LENGTH] at hsl
              omega
            have htl : (rest.take 8).length = 8 := by
              rw [List.length_take]
              omega
            have htb : ∀ x ∈ rest.take 8, x < 256 := fun x hx =>
              hbytes2 x (List.take_subset 8 rest hx)
            constructor
            · show 0 :: (i64ToLeBytes (i64FromLeBytes (rest.take 8)) ++ rest.drop 8) =
                0 :: rest
              rw [i64ToLeBytes_i64FromLeBytes (rest.take 8) htl htb,
                List.take_append_drop]
            · simp [hlen]
          · exact absurd h (by simp [unpack, h8, hsl, hutf])
        · exact absurd h (by simp [unpack, h8, hsl])
    · by_cases h1 : tag = 1
      · subst h1
        exact absurd h (by simp [unpack])
      · exact absurd h (by simp [unpack, h0, h1])

/-- Witness for C7 on the concrete create buffer with timestamp 1000 and a
secret of 256 bytes of 65. -/
theorem unpack_packInstruction_roundtrip_witness :
    packInstruction (.initializeTimeLock 1000 (List.replicate 256 65)) =
      0 :: ([232, 3, 0, 0, 0, 0, 0, 0] ++ List.replicate 256 65)
    ∧ (0 :: ([232, 3, 0, 0, 0, 0, 0, 0] ++ List.replicate 256 65)).length = 265 :=
  unpack_packInstruction_roundtrip
    (0 :: ([232, 3, 0, 0, 0, 0, 0, 0] ++ List.replicate 256 65)) 1000
    (List.replicate 256 65) (by decide) (by decide)

/-- C8: serializing a lock record and deserializing the bytes yields the
identical record, and the serialized form (264 bytes) fits within the
`account_space` storage footprint the create path allocates. -/
theorem serializeTimeLockAccount_roundtrip (a : TimeLockAccount)
    (hlen : a.secret.length = SECRET_LENGTH)
    (hlo : -(2 ^ 63) ≤ a.timestamp) (hhi : a.timestamp < 2 ^ 63) :
    deserializeTimeLockAccount (serializeTimeLockAccount a) = .ok a
    ∧ (serializeTimeLockAccount a).length ≤ account_space := by
  have hl8 : (i64ToLeBytes a.timestamp).length = 8 := i64ToLeBytes_length _
  have hlen2 : (serializeTimeLockAccount a).length = 8 + SECRET_LENGTH := by
    simp [serializeTimeLockAccount, hl8, hlen]
  constructor
  · unfold deserializeTimeLockAccount
    rw [if_pos hlen2]
    unfold serializeTimeLockAccount
    rw [List.take_left' hl8, List.drop_left' hl8,
      i64FromLeBytes_i64ToLeBytes a.timestamp hlo hhi]
  · rw [hlen2]
    exact Nat.le_refl _

/-- Witness for C8 at a concrete record with a negative timestamp. -/
theorem serializeTimeLockAccount_roundtrip_witness :
    deserializeTimeLockAccount (serializeTimeLockAccount
      { timestamp := -5, secret := List.replicate 256 66 }) =
      .ok { timestamp := -5, secret := List.replicate 256 66 }
    ∧ (serializeTimeLockAccount
        { timestamp := -5, secret := List.replicate 256 66 }).length ≤ account_space :=
  serializeTimeLockAccount_roundtrip { timestamp := -5, secret := List.replicate 256 66 }
    (by decide) (by decide) (by decide)

/-- Helper for C9: the create path cannot succeed on an account that is
already in use — the System Program invocation rejects it, whatever the
timestamps. -/
theorem initialize_time_lock_inuse (programId : Nat) (acct : Account)
    (now timestamp : Int) (secret : List Nat) (h : accountInUse acct = true) :
    ∃ e, initialize_time_lock programId acct now timestamp secret = .error e := by
  by_cases hts : timestamp ≤ now
  · exact ⟨.invalidInstructionData, by simp [initialize_time_lock, ge_iff_le, hts]⟩
  · exact ⟨.invokeFailed, by simp [initialize_time_lock, ge_iff_le, hts, h]⟩

/-- C9: an existing record is immutable.  For an account already assigned
to a program (as every created record's account is), processing any
instruction either fails or leaves the account — owner and stored record
bytes — exactly as it was: the unlock attempt is a pure read, and re-running
create is rejected by the allocation layer, so no update operation exists. -/
theorem record_immutable (programId : Nat) (acct acct2 : Account) (now : Int)
    (instruction_data : List Nat) (howner : acct.owner ≠ systemProgramId)
    (h : process_instruction programId acct now instruction_data = .ok acct2) :
    acct2 = acct := by
  have hinuse : accountInUse acct = true := by
    simp [accountInUse, howner]
  unfold process_instruction at h
  split at h
  · exact ProcResult.noConfusion h
  · exact ProcResult.noConfusion h
  · obtain ⟨e, he⟩ := initialize_time_lock_inuse programId acct now _ _ hinuse
    rw [he] at h
    exact ProcResult.noConfusion h
  · split at h
    · injection h with h2
      exact h2.symm
    · exact ProcResult.noConfusion h

/-- Witness for C9: a created account (owner 7, holding a serialized
record) processed with the unlock instruction comes back unchanged. -/
theorem record_immutable_witness :
    let acct : Account :=
      { owner := 7,
        data := serializeTimeLockAccount
                  { timestamp := 100, secret := List.replicate 256 65 } }
    acct.owner ≠ systemProgramId
    ∧ process_instruction 7 acct 99 [1] = .ok acct
    ∧ acct = acct :=
  ⟨by decide, by decide,
   record_immutable 7 _ _ 99 [1] (by decide) (by decide)⟩

end TimeLock
